import Mathlib

/-!
Verification of the metadata-command router of a sharded data store, the component
exercised by `src/jstests/sharding/index_and_collection_option_propagation.js`.
The router implementation itself (mongos targeting for createIndex, reIndex,
dropIndex, collMod) is not part of this repository snapshot; only the jstest
driving it is.  The router components (Command Classifier, Target Resolver,
Fan-Out Executor, Response Aggregator, `routeMetadataCommand`) are therefore
modelled from the spec, while the concrete behavior the jstest asserts
(broadcast to all shards on a sharded collection, suppressed error codes in the
raw per-shard responses) is embedded separately from the test file itself.
-/

namespace MetadataRouter

/-- A member identifier: one cluster node, identified by its address/host string
(as in the jstest's `st.shardN.host`). -/
abbrev Member := String

/-- Error codes relevant to the router core: the two suppressible codes the test
asserts (`ErrorCodes.NamespaceNotFound`, `ErrorCodes.CannotImplicitlyCreateCollection`),
the fatal resolution/classification errors of spec §7, and generic member-side codes. -/
inductive ErrorCode where
  | namespaceNotFound
  | cannotImplicitlyCreateCollection
  | unknownNamespace
  | unrecognizedCommandKind
  | indexNotFound
  | hostUnreachable
deriving DecidableEq, Repr

/-- Collection Partitioning State (spec §3): a collection is either
`unpartitioned` with a designated primary member, or `partitioned` with a shard
key and a range-ownership mapping from member to the set of ranges it owns. -/
inductive PartitioningState where
  | unpartitioned (primaryMember : Member)
  | partitioned (shardKeySpec : String) (rangeOwnership : List (Member × List String))
deriving DecidableEq, Repr

/-- Association-list lookup used by the Topology Directory. -/
def assocFind (key : String) : List (String × α) → Option α
  | [] => none
  | (k, v) :: rest => if k = key then some v else assocFind key rest

/-- Topology Directory (spec §2, §6): records each namespace's partitioning
state, and the designated primary member per namespace (consulted for
partitioned collections; an unpartitioned collection carries its primary in its
variant). -/
structure Topology where
  entries : List (String × PartitioningState)
  primaries : List (String × Member)
deriving DecidableEq, Repr

/-- Topology Directory interface `getPartitioningState(namespace)` (spec §6);
`none` means `UnknownNamespace`. -/
def getPartitioningState (t : Topology) (ns : String) : Option PartitioningState :=
  assocFind ns t.entries

/-- Topology Directory interface `getPrimary(namespace)` (spec §6): the primary
of an unpartitioned collection is read from its variant; for a partitioned
collection the designated primary is looked up separately. -/
def getPrimary (t : Topology) (ns : String) : Option Member :=
  match assocFind ns t.entries with
  | some (.unpartitioned p) => some p
  | some (.partitioned _ _) => assocFind ns t.primaries
  | none => none

/-- Targeting mode of a command kind (spec §3): a static property of the kind. -/
inductive TargetingMode where
  | primaryOnly
  | broadcastToOwners
deriving DecidableEq, Repr

/-- Modelled from the spec: the Command Classifier (spec §4.1), whose
implementation is not in this repository. `classify(commandKind) ->
(targetingMode, suppressibleErrors)`; pure and total over recognized kinds,
failing (`none`) only on an unrecognized kind.  Creation-style commands
(index-create) suppress "collection/database does not exist yet on this
member"; existing-object commands (index-rebuild, index-drop,
collection-option-modify) suppress "namespace not found". -/
def classify (commandKind : String) : Option (TargetingMode × List ErrorCode) :=
  match commandKind with
  | "createIndex" => some (.broadcastToOwners, [.cannotImplicitlyCreateCollection])
  | "reIndex" => some (.broadcastToOwners, [.namespaceNotFound])
  | "dropIndex" => some (.broadcastToOwners, [.namespaceNotFound])
  | "collMod" => some (.broadcastToOwners, [.namespaceNotFound])
  | _ => none

/-- The members holding non-empty range ownership in a range-ownership mapping. -/
def owningMembers (rangeOwnership : List (Member × List String)) : List Member :=
  (rangeOwnership.filter (fun p => !p.2.isEmpty)).map Prod.fst

/-- Modelled from the spec: the Target Resolver (spec §4.2), whose
implementation is not in this repository. `resolveTargets(namespace,
targetingMode)`: `primaryOnly` returns the single designated primary regardless
of partitioning state; `broadcastToOwners` returns the primary for an
unpartitioned collection, the members with non-empty range ownership for a
partitioned one, and the primary alone when a partitioned collection has zero
range ownership anywhere.  Fails with `unknownNamespace` when the namespace is
absent from the Topology Directory. -/
def resolveTargets (t : Topology) (ns : String) (mode : TargetingMode) :
    Except ErrorCode (List Member) :=
  match mode with
  | .primaryOnly =>
    match getPrimary t ns with
    | none => .error .unknownNamespace
    | some p => .ok [p]
  | .broadcastToOwners =>
    match getPartitioningState t ns with
    | none => .error .unknownNamespace
    | some (.unpartitioned p) => .ok [p]
    | some (.partitioned _ rangeOwnership) =>
      let os := owningMembers rangeOwnership
      if os.isEmpty then
        match getPrimary t ns with
        | none => .error .unknownNamespace
        | some p => .ok [p]
      else .ok os

/-- Per-Member Result (spec §3): a success payload opaque to the router, or a
failure with an error code and message.  Immutable once produced. -/
inductive PerMemberResult where
  | success (payload : String)
  | failure (code : ErrorCode) (msg : String)
deriving DecidableEq, Repr

/-- Whether a per-member result is a success. -/
def PerMemberResult.isSuccess : PerMemberResult → Bool
  | .success _ => true
  | .failure _ _ => false

/-- Modelled from the spec: the Fan-Out Executor contract (spec §4.3), whose
implementation is not in this repository.  Every target yields exactly one
per-member result before the call returns; the transport `send` is the external
collaborator of spec §6 (its reply already normalized into the result shape). -/
def execute (targets : List Member) (send : Member → PerMemberResult) :
    List (Member × PerMemberResult) :=
  targets.map fun m => (m, send m)

/-- The non-ignorable failures among per-member results: failures whose error
code is not in the suppressible set (spec §4.4).  Successes and suppressible
failures are excluded. -/
def nonIgnorableFailures (suppressibleErrors : List ErrorCode) :
    List (Member × PerMemberResult) → List (Member × ErrorCode × String)
  | [] => []
  | (_, .success _) :: rest => nonIgnorableFailures suppressibleErrors rest
  | (m, .failure c msg) :: rest =>
    if suppressibleErrors.contains c then nonIgnorableFailures suppressibleErrors rest
    else (m, c, msg) :: nonIgnorableFailures suppressibleErrors rest

/-- Strict lexicographic order on character lists by code point, the order
underlying "lowest member identifier" comparisons of member addresses. -/
def charListLt : List Char → List Char → Bool
  | [], [] => false
  | [], _ :: _ => true
  | _ :: _, [] => false
  | c :: cs, d :: ds =>
    if c.toNat < d.toNat then true
    else if d.toNat < c.toNat then false
    else charListLt cs ds

/-- Strict order on member identifiers (lexicographic over their characters). -/
def memberLtb (a b : Member) : Bool := charListLt a.data b.data

/-- Deterministic tie-break of spec §4.4: among qualifying failures, pick the
one with the lowest member identifier. -/
def pickLowest : List (Member × ErrorCode × String) → Option (Member × ErrorCode × String)
  | [] => none
  | f :: fs => some (fs.foldl (fun best g => if memberLtb g.1 best.1 then g else best) f)

/-- Aggregated Outcome (spec §3): overall flag, optional overall error, and the
raw mapping from member to its per-member result, always fully populated. -/
structure AggregatedOutcome where
  ok : Bool
  overallError : Option (Member × ErrorCode × String)
  raw : List (Member × PerMemberResult)
deriving DecidableEq, Repr

/-- Modelled from the spec: the Response Aggregator (spec §4.4), whose
implementation is not in this repository.  Overall outcome is success iff every
non-ignorable result succeeded; the overall error is the non-ignorable failure
with the lowest member identifier; the raw mapping is the results untouched. -/
def aggregate (results : List (Member × PerMemberResult))
    (suppressibleErrors : List ErrorCode) : AggregatedOutcome :=
  let nif := nonIgnorableFailures suppressibleErrors results
  { ok := nif.isEmpty, overallError := pickLowest nif, raw := results }

/-- Modelled from the spec: `routeMetadataCommand` (spec §6), whose
implementation is not in this repository.  Classify, resolve targets against
the Topology Directory, fan out via the transport, aggregate.  Classification
and resolution errors are fatal and surfaced with no dispatch attempted. -/
def routeMetadataCommand (t : Topology) (send : Member → PerMemberResult)
    (ns : String) (commandKind : String) : Except ErrorCode AggregatedOutcome :=
  match classify commandKind with
  | none => .error .unrecognizedCommandKind
  | some (mode, suppressibleErrors) =>
    match resolveTargets t ns mode with
    | .error e => .error e
    | .ok targets => .ok (aggregate (execute targets send) suppressibleErrors)

/-- The targeting behavior documented by the test's header comment and asserted
by its raw-response checks (`index_and_collection_option_propagation.js` lines
2-7 and 119-156): a command on an unsharded collection is routed only to the
primary shard; a command on a sharded collection is broadcast to all shards
(not merely the shards owning ranges). -/
def mongosTargets (allShards : List Member) (t : Topology) (ns : String) :
    Except ErrorCode (List Member) :=
  match getPartitioningState t ns with
  | none => .error .unknownNamespace
  | some (.unpartitioned p) => .ok [p]
  | some (.partitioned _ _) => .ok allShards

/-- Routing with the targeting behavior the test documents and asserts
(`mongosTargets`), with the classification and aggregation of the spec. -/
def mongosRoute (allShards : List Member) (t : Topology)
    (send : Member → PerMemberResult) (ns : String) (commandKind : String) :
    Except ErrorCode AggregatedOutcome :=
  match classify commandKind with
  | none => .error .unrecognizedCommandKind
  | some (_, suppressibleErrors) =>
    match mongosTargets allShards t ns with
    | .error e => .error e
    | .ok targets => .ok (aggregate (execute targets send) suppressibleErrors)

/-- The metadata command payloads driven by the test: createIndex with an index
key, reIndex, dropIndex with an index name, collMod with a collection option. -/
inductive CommandPayload where
  | createIndex (indexKey : String)
  | reIndex
  | dropIndex (indexKey : String)
  | collMod (optionKey optionValue : String)
deriving DecidableEq, Repr

/-- The command kind string of a payload, as fed to the Command Classifier. -/
def CommandPayload.kind : CommandPayload → String
  | .createIndex _ => "createIndex"
  | .reIndex => "reIndex"
  | .dropIndex _ => "dropIndex"
  | .collMod _ _ => "collMod"

/-- A member's local view of the collection, as observed by the test's
`checkShardIndexes` / `checkShardCollOption` helpers via listIndexes and
listCollections: whether the member has materialized the collection, which
indexes it holds, and which collection options are set. -/
structure MemberState where
  hasCollection : Bool
  indexes : List String
  options : List (String × String)
deriving DecidableEq, Repr

/-- The member state of a shard that never materialized the collection. -/
def defaultMemberState : MemberState :=
  { hasCollection := false, indexes := [], options := [] }

/-- Set a collection option, replacing any previous value for the same key. -/
def setOption (key value : String) : List (String × String) → List (String × String)
  | [] => [(key, value)]
  | (k, v) :: rest =>
    if k = key then (key, value) :: rest else (k, v) :: setOption key value rest

/-- Modelled from the spec: member-local execution of a metadata command by the
external storage engine (spec §1 collaborator), whose implementation is not in
this repository.  A member holding the collection executes the command
(createIndex idempotently succeeds when the index already exists); a member
without the collection reports `CannotImplicitlyCreateCollection` for
createIndex and `NamespaceNotFound` for the existing-object commands, the codes
the test asserts in the raw responses (lines 124-125, 133, 142, 156). -/
def memberExec (st : MemberState) : CommandPayload → MemberState × PerMemberResult
  | .createIndex key =>
    if st.hasCollection then
      if st.indexes.contains key then (st, .success "index already exists")
      else ({ st with indexes := st.indexes ++ [key] }, .success "index created")
    else
      (st, .failure .cannotImplicitlyCreateCollection
        "collection does not exist yet on this member")
  | .reIndex =>
    if st.hasCollection then (st, .success "reindexed")
    else (st, .failure .namespaceNotFound "ns not found")
  | .dropIndex key =>
    if st.hasCollection then
      if st.indexes.contains key then
        ({ st with indexes := st.indexes.erase key }, .success "index dropped")
      else (st, .failure .indexNotFound "index not found")
    else (st, .failure .namespaceNotFound "ns not found")
  | .collMod key value =>
    if st.hasCollection then
      ({ st with options := setOption key value st.options }, .success "collection modified")
    else (st, .failure .namespaceNotFound "ns not found")

/-- A cluster: the topology plus each member's local collection state. -/
structure Cluster where
  topology : Topology
  memberStates : List (Member × MemberState)
deriving DecidableEq, Repr

/-- The local state of member `m`, defaulting to "never materialized". -/
def getMemberState (c : Cluster) (m : Member) : MemberState :=
  (assocFind m c.memberStates).getD defaultMemberState

/-- End-to-end routing with the targeting behavior the test documents
(`mongosTargets`): classify, resolve, execute the command on every targeted
member's local state, aggregate, and return the updated cluster together with
the aggregated outcome.  Untargeted members keep their state. -/
def mongosRouteAndApply (allShards : List Member) (c : Cluster) (ns : String)
    (cmd : CommandPayload) : Except ErrorCode (Cluster × AggregatedOutcome) :=
  match classify cmd.kind with
  | none => .error .unrecognizedCommandKind
  | some (_, suppressibleErrors) =>
    match mongosTargets allShards c.topology ns with
    | .error e => .error e
    | .ok targets =>
      let results := targets.map fun m => (m, (memberExec (getMemberState c m) cmd).2)
      let newStates := c.memberStates.map fun p =>
        (p.1, if targets.contains p.1 then (memberExec p.2 cmd).1 else p.2)
      .ok ({ c with memberStates := newStates }, aggregate results suppressibleErrors)

/-- Whether a routed command reached an overall-success outcome. -/
def routeOk : Except ErrorCode (Cluster × AggregatedOutcome) → Bool
  | .ok (_, o) => o.ok
  | .error _ => false

/-- Whether a per-member result is a success or carries a suppressible error
code: exactly the results that do not count against the overall verdict. -/
def suppressedOrSuccess (suppressibleErrors : List ErrorCode) : PerMemberResult → Bool
  | .success _ => true
  | .failure c _ => suppressibleErrors.contains c

/-! ### Concrete scenarios from the test

`index_and_collection_option_propagation.js` uses database `test`, collection
`foo`, three single-node shards with `shard0` the primary shard, and moves data
so that shards 0 and 1 hold the collection while `shard2` owns nothing. -/

/-- Shard 0's member identifier. -/
def shard0 : Member := "shard0"

/-- Shard 1's member identifier. -/
def shard1 : Member := "shard1"

/-- Shard 2's member identifier. -/
def shard2 : Member := "shard2"

/-- The three shards of the test's cluster. -/
def allShards3 : List Member := [shard0, shard1, shard2]

/-- The test's namespace `test.foo`. -/
def nsFoo : String := "test.foo"

/-- Topology before `shardCollection`: `test.foo` unpartitioned with primary
shard0 (test lines 82-83). -/
def unshardedTopology : Topology :=
  { entries := [(nsFoo, .unpartitioned shard0)], primaries := [(nsFoo, shard0)] }

/-- Topology of the broadcast scenario: `test.foo` partitioned with ranges on
shard0 and shard1 and none on shard2, primary shard0. -/
def shardedTopology : Topology :=
  { entries :=
      [(nsFoo, .partitioned "x"
        [(shard0, ["rangeLow"]), (shard1, ["rangeHigh"]), (shard2, [])])],
    primaries := [(nsFoo, shard0)] }

/-- Topology right after `shardCollection` conceptually stripped of ownership:
partitioned, zero range ownership anywhere, primary shard0. -/
def emptyOwnershipTopology : Topology :=
  { entries := [(nsFoo, .partitioned "x" [(shard0, []), (shard1, []), (shard2, [])])],
    primaries := [(nsFoo, shard0)] }

/-- A topology with no entry for `test.foo` at all. -/
def emptyTopology : Topology := { entries := [], primaries := [] }

/-- Transport behavior of the post-moveChunk createIndex: shards 0 and 1 reply
ok, shard2 replies `CannotImplicitlyCreateCollection` (test lines 120-125). -/
def testSend : Member → PerMemberResult := fun m =>
  if m = shard2 then
    .failure .cannotImplicitlyCreateCollection "CannotImplicitlyCreateCollection"
  else .success "ok"

/-- The raw per-shard responses the test asserts for the post-moveChunk
createIndex (lines 120-125): `raw[shard0].ok = 1`, `raw[shard1].ok = 1`,
`raw[shard2].code = CannotImplicitlyCreateCollection`. -/
def testCreateIndexRaw : List (Member × PerMemberResult) :=
  [(shard0, .success "ok"), (shard1, .success "ok"),
   (shard2, .failure .cannotImplicitlyCreateCollection "CannotImplicitlyCreateCollection")]

/-- Member states after the moveChunk (test lines 106-110): shards 0 and 1 hold
the collection with `_id_` and `idx1`; shard2 never materialized it. -/
def postMoveChunkCluster : Cluster :=
  { topology := shardedTopology,
    memberStates :=
      [(shard0, { hasCollection := true, indexes := ["_id_", "idx1"], options := [] }),
       (shard1, { hasCollection := true, indexes := ["_id_", "idx1"], options := [] }),
       (shard2, defaultMemberState)] }

/-- The cluster after broadcasting `createIndex idx2` over
`postMoveChunkCluster`: shards 0 and 1 added the index, shard2 unchanged
(test line 126: `checkShardIndexes("idx2", [shard0, shard1], [shard2])`). -/
def postCreateIndexCluster : Cluster :=
  { topology := shardedTopology,
    memberStates :=
      [(shard0, { hasCollection := true, indexes := ["_id_", "idx1", "idx2"], options := [] }),
       (shard1, { hasCollection := true, indexes := ["_id_", "idx1", "idx2"], options := [] }),
       (shard2, defaultMemberState)] }

/-- The aggregated outcome of that broadcast: overall success, raw entries for
all three shards with shard2 carrying the suppressed error. -/
def postCreateIndexOutcome : AggregatedOutcome :=
  { ok := true, overallError := none,
    raw := [(shard0, .success "index created"), (shard1, .success "index created"),
            (shard2, .failure .cannotImplicitlyCreateCollection
              "collection does not exist yet on this member")] }

/-! ### Order facts about the member-identifier comparison -/

/-- The lexicographic order on character lists is irreflexive. -/
theorem charListLt_irrefl : ∀ l : List Char, charListLt l l = false
  | [] => rfl
  | c :: cs => by simp [charListLt, Nat.lt_irrefl, charListLt_irrefl cs]

/-- The lexicographic order on character lists is transitive. -/
theorem charListLt_trans : ∀ a b c : List Char,
    charListLt a b = true → charListLt b c = true → charListLt a c = true
  | [], [], _, hab, _ => by simp [charListLt] at hab
  | [], _ :: _, [], _, hbc => by simp [charListLt] at hbc
  | [], _ :: _, _ :: _, _, _ => by simp [charListLt]
  | _ :: _, [], _, hab, _ => by simp [charListLt] at hab
  | _ :: _, _ :: _, [], _, hbc => by simp [charListLt] at hbc
  | a :: as, b :: bs, c :: cs, hab, hbc => by
    simp only [charListLt] at hab hbc ⊢
    by_cases h1 : a.toNat < b.toNat
    · by_cases h2 : b.toNat < c.toNat
      · simp [Nat.lt_trans h1 h2]
      · rw [if_neg h2] at hbc
        by_cases h3 : c.toNat < b.toNat
        · rw [if_pos h3] at hbc
          exact absurd hbc (by simp)
        · have hbc' : b.toNat = c.toNat :=
            Nat.le_antisymm (Nat.le_of_not_lt h3) (Nat.le_of_not_lt h2)
          simp [hbc' ▸ h1]
    · rw [if_neg h1] at hab
      by_cases h1' : b.toNat < a.toNat
      · rw [if_pos h1'] at hab
        exact absurd hab (by simp)
      · have hab' : a.toNat = b.toNat :=
          Nat.le_antisymm (Nat.le_of_not_lt h1') (Nat.le_of_not_lt h1)
        rw [if_neg h1'] at hab
        by_cases h2 : b.toNat < c.toNat
        · simp [hab' ▸ h2]
        · rw [if_neg h2] at hbc
          by_cases h3 : c.toNat < b.toNat
          · rw [if_pos h3] at hbc
            exact absurd hbc (by simp)
          · rw [if_neg h3] at hbc
            have hrec := charListLt_trans as bs cs hab hbc
            have hac : a.toNat = c.toNat :=
              hab'.trans (Nat.le_antisymm (Nat.le_of_not_lt h3) (Nat.le_of_not_lt h2))
            rw [hac, if_neg (Nat.lt_irrefl c.toNat), if_neg (Nat.lt_irrefl c.toNat)]
            exact hrec

/-- Trichotomy for the lexicographic order on character lists. -/
theorem charListLt_trichotomy : ∀ a b : List Char,
    charListLt a b = true ∨ a = b ∨ charListLt b a = true
  | [], [] => Or.inr (Or.inl rfl)
  | [], _ :: _ => Or.inl rfl
  | _ :: _, [] => Or.inr (Or.inr rfl)
  | a :: as, b :: bs => by
    rcases Nat.lt_trichotomy a.toNat b.toNat with h | h | h
    · exact Or.inl (by simp [charListLt, h])
    · have hab : a = b := Char.ext (UInt32.ext h)
      subst hab
      rcases charListLt_trichotomy as bs with h2 | h2 | h2
      · exact Or.inl (by simp [charListLt, Nat.lt_irrefl, h2])
      · exact Or.inr (Or.inl (by rw [h2]))
      · exact Or.inr (Or.inr (by simp [charListLt, Nat.lt_irrefl, h2]))
    · exact Or.inr (Or.inr (by simp [charListLt, h, Nat.lt_asymm h]))

/-- The member-identifier order is irreflexive. -/
theorem memberLtb_irrefl (a : Member) : memberLtb a a = false :=
  charListLt_irrefl a.data

/-- The member-identifier order is transitive. -/
theorem memberLtb_trans {a b c : Member} (hab : memberLtb a b = true)
    (hbc : memberLtb b c = true) : memberLtb a c = true :=
  charListLt_trans a.data b.data c.data hab hbc

/-- Trichotomy for the member-identifier order. -/
theorem memberLtb_trichotomy (a b : Member) :
    memberLtb a b = true ∨ a = b ∨ memberLtb b a = true := by
  rcases charListLt_trichotomy a.data b.data with h | h | h
  · exact Or.inl h
  · exact Or.inr (Or.inl (String.ext h))
  · exact Or.inr (Or.inr h)

/-! ### Properties of the tie-break and the aggregator -/

/-- The foldl underlying `pickLowest` returns an element of the list that no
other element is strictly below. -/
theorem pickLowest_foldl_spec :
    ∀ (fs : List (Member × ErrorCode × String)) (f : Member × ErrorCode × String),
      (fs.foldl (fun best g => if memberLtb g.1 best.1 then g else best) f) ∈ f :: fs ∧
      ∀ g ∈ f :: fs,
        memberLtb g.1
          (fs.foldl (fun best g => if memberLtb g.1 best.1 then g else best) f).1 = false
  | [], f => by
    constructor
    · simp
    · intro g hg
      rw [List.mem_singleton] at hg
      subst hg
      exact memberLtb_irrefl g.1
  | h :: t, f => by
    simp only [List.foldl_cons]
    by_cases hlt : memberLtb h.1 f.1 = true
    · rw [if_pos hlt]
      have ih := pickLowest_foldl_spec t h
      refine ⟨List.mem_cons_of_mem f ih.1, ?_⟩
      intro g hg
      have hstep : memberLtb h.1
          (t.foldl (fun best g => if memberLtb g.1 best.1 then g else best) h).1 = false :=
        ih.2 h (List.mem_cons_self h t)
      rcases List.mem_cons.mp hg with hgf | hg2
      · subst hgf
        cases hfr : memberLtb g.1
            (t.foldl (fun best g => if memberLtb g.1 best.1 then g else best) h).1 with
        | false => rfl
        | true => exact absurd (memberLtb_trans hlt hfr) (by simp [hstep])
      · exact ih.2 g hg2
    · rw [if_neg hlt]
      have ih := pickLowest_foldl_spec t f
      constructor
      · rcases List.mem_cons.mp ih.1 with hm | hm
        · exact List.mem_cons.mpr (Or.inl hm)
        · exact List.mem_cons.mpr (Or.inr (List.mem_cons_of_mem h hm))
      · intro g hg
        have hstep : memberLtb f.1
            (t.foldl (fun best g => if memberLtb g.1 best.1 then g else best) f).1 = false :=
          ih.2 f (List.mem_cons_self f t)
        rcases List.mem_cons.mp hg with hgf | hg2
        · subst hgf
          exact hstep
        · rcases List.mem_cons.mp hg2 with hgh | hgt
          · subst hgh
            cases hgr : memberLtb g.1
                (t.foldl (fun best g => if memberLtb g.1 best.1 then g else best) f).1 with
            | false => rfl
            | true =>
              exfalso
              rcases memberLtb_trichotomy f.1
                  (t.foldl (fun best g => if memberLtb g.1 best.1 then g else best) f).1 with
                h3 | h3 | h3
              · exact absurd h3 (by simp [hstep])
              · rw [← h3] at hgr
                exact hlt hgr
              · exact hlt (memberLtb_trans hgr h3)
          · exact ih.2 g (List.mem_cons_of_mem f hgt)

/-- `pickLowest` returns an element of its input that is lowest: every element
of the input either shares its member identifier or is strictly above it. -/
theorem pickLowest_spec (l : List (Member × ErrorCode × String))
    (e : Member × ErrorCode × String) (he : pickLowest l = some e) :
    e ∈ l ∧ ∀ g ∈ l, e.1 = g.1 ∨ memberLtb e.1 g.1 = true := by
  match l, he with
  | f :: fs, he =>
    have hspec := pickLowest_foldl_spec fs f
    have he' : fs.foldl (fun best g => if memberLtb g.1 best.1 then g else best) f = e := by
      simpa [pickLowest] using he
    rw [he'] at hspec
    refine ⟨hspec.1, ?_⟩
    intro g hg
    have hnot := hspec.2 g hg
    rcases memberLtb_trichotomy e.1 g.1 with h | h | h
    · exact Or.inr h
    · exact Or.inl h
    · exact absurd h (by rw [hnot]; simp)

/-- The raw mapping of an aggregated outcome is the per-member results,
untouched. -/
theorem aggregate_raw (results : List (Member × PerMemberResult))
    (supp : List ErrorCode) : (aggregate results supp).raw = results := rfl

/-- The non-ignorable failures are empty iff every per-member result is a
success or carries a suppressible error code. -/
theorem nonIgnorableFailures_eq_nil_iff (supp : List ErrorCode) :
    ∀ results : List (Member × PerMemberResult),
      nonIgnorableFailures supp results = [] ↔
        ∀ p ∈ results, suppressedOrSuccess supp p.2 = true
  | [] => by simp [nonIgnorableFailures]
  | (m, PerMemberResult.success payload) :: rest => by
    simp only [nonIgnorableFailures, List.mem_cons]
    rw [nonIgnorableFailures_eq_nil_iff supp rest]
    constructor
    · intro h p hp
      rcases hp with hp | hp
      · subst hp
        simp [suppressedOrSuccess]
      · exact h p hp
    · intro h p hp
      exact h p (Or.inr hp)
  | (m, PerMemberResult.failure c msg) :: rest => by
    simp only [nonIgnorableFailures, List.mem_cons]
    by_cases hc : supp.contains c = true
    · rw [if_pos hc, nonIgnorableFailures_eq_nil_iff supp rest]
      constructor
      · intro h p hp
        rcases hp with hp | hp
        · subst hp
          simp only [suppressedOrSuccess]
          exact hc
        · exact h p hp
      · intro h p hp
        exact h p (Or.inr hp)
    · rw [if_neg hc]
      constructor
      · intro h
        exact absurd h (List.cons_ne_nil _ _)
      · intro h
        have := h (m, PerMemberResult.failure c msg) (Or.inl rfl)
        simp only [suppressedOrSuccess] at this
        exact absurd this hc

/-- Every non-ignorable failure corresponds to an original failure entry of the
results, with a code outside the suppressible set. -/
theorem nonIgnorableFailures_mem (supp : List ErrorCode) :
    ∀ (results : List (Member × PerMemberResult)) (e : Member × ErrorCode × String),
      e ∈ nonIgnorableFailures supp results →
        (e.1, PerMemberResult.failure e.2.1 e.2.2) ∈ results ∧ supp.contains e.2.1 = false
  | [], e, he => by simp [nonIgnorableFailures] at he
  | (m, PerMemberResult.success payload) :: rest, e, he => by
    simp only [nonIgnorableFailures] at he
    have ih := nonIgnorableFailures_mem supp rest e he
    exact ⟨List.mem_cons_of_mem _ ih.1, ih.2⟩
  | (m, PerMemberResult.failure c msg) :: rest, e, he => by
    simp only [nonIgnorableFailures] at he
    by_cases hc : supp.contains c = true
    · rw [if_pos hc] at he
      have ih := nonIgnorableFailures_mem supp rest e he
      exact ⟨List.mem_cons_of_mem _ ih.1, ih.2⟩
    · rw [if_neg hc] at he
      rcases List.mem_cons.mp he with he1 | he2
      · subst he1
        refine ⟨List.mem_cons_self _ _, ?_⟩
        cases hcc : supp.contains c with
        | false => rfl
        | true => exact absurd hcc hc
      · have ih := nonIgnorableFailures_mem supp rest e he2
        exact ⟨List.mem_cons_of_mem _ ih.1, ih.2⟩

/-- The overall flag of `aggregate` is true iff every per-member result is a
success or carries a suppressible error code. -/
theorem aggregate_ok_iff (results : List (Member × PerMemberResult))
    (supp : List ErrorCode) :
    (aggregate results supp).ok = true ↔
      ∀ p ∈ results, suppressedOrSuccess supp p.2 = true := by
  have hshow : (aggregate results supp).ok = (nonIgnorableFailures supp results).isEmpty := rfl
  rw [hshow, List.isEmpty_iff]
  exact nonIgnorableFailures_eq_nil_iff supp results

/-- When every per-member result is a success or suppressible, the aggregated
outcome is overall success with no overall error and the raw results intact. -/
theorem aggregate_all_suppressed (results : List (Member × PerMemberResult))
    (supp : List ErrorCode)
    (h : ∀ p ∈ results, suppressedOrSuccess supp p.2 = true) :
    aggregate results supp = { ok := true, overallError := none, raw := results } := by
  have hnil : nonIgnorableFailures supp results = [] :=
    (nonIgnorableFailures_eq_nil_iff supp results).mpr h
  show (⟨(nonIgnorableFailures supp results).isEmpty,
    pickLowest (nonIgnorableFailures supp results), results⟩ : AggregatedOutcome) = _
  rw [hnil]
  rfl

/-! ### Routing and member-execution helper lemmas -/

/-- Unfolding of `routeMetadataCommand` when classification and resolution
succeed. -/
theorem routeMetadataCommand_eq (t : Topology) (send : Member → PerMemberResult)
    (ns kind : String) (mode : TargetingMode) (supp : List ErrorCode)
    (targets : List Member)
    (hcl : classify kind = some (mode, supp))
    (hrt : resolveTargets t ns mode = .ok targets) :
    routeMetadataCommand t send ns kind = .ok (aggregate (execute targets send) supp) := by
  unfold routeMetadataCommand
  simp only [hcl, hrt]

/-- Unfolding of `mongosRoute` when classification and targeting succeed. -/
theorem mongosRoute_eq (all : List Member) (t : Topology)
    (send : Member → PerMemberResult) (ns kind : String) (mode : TargetingMode)
    (supp : List ErrorCode) (targets : List Member)
    (hcl : classify kind = some (mode, supp))
    (hmt : mongosTargets all t ns = .ok targets) :
    mongosRoute all t send ns kind = .ok (aggregate (execute targets send) supp) := by
  unfold mongosRoute
  simp only [hcl, hmt]

/-- Unfolding of `mongosRouteAndApply` when classification and targeting
succeed. -/
theorem mongosRouteAndApply_eq (all : List Member) (c : Cluster) (ns : String)
    (cmd : CommandPayload) (mode : TargetingMode) (supp : List ErrorCode)
    (targets : List Member)
    (hcl : classify cmd.kind = some (mode, supp))
    (hmt : mongosTargets all c.topology ns = .ok targets) :
    mongosRouteAndApply all c ns cmd = .ok
      ({ c with memberStates := c.memberStates.map fun p =>
          (p.1, if targets.contains p.1 then (memberExec p.2 cmd).1 else p.2) },
        aggregate (targets.map fun m => (m, (memberExec (getMemberState c m) cmd).2)) supp) := by
  unfold mongosRouteAndApply
  simp only [hcl, hmt]

/-- An unpartitioned collection's primary is its designated primary. -/
theorem getPrimary_of_unpartitioned (t : Topology) (ns : String) (p : Member)
    (hp : getPartitioningState t ns = some (.unpartitioned p)) :
    getPrimary t ns = some p := by
  rw [getPartitioningState] at hp
  unfold getPrimary
  rw [hp]

/-- A namespace absent from the Topology Directory has no primary. -/
theorem getPrimary_of_unknown (t : Topology) (ns : String)
    (hp : getPartitioningState t ns = none) : getPrimary t ns = none := by
  rw [getPartitioningState] at hp
  unfold getPrimary
  rw [hp]

/-- On an unpartitioned collection every targeting mode resolves to the
primary member alone. -/
theorem resolveTargets_unpartitioned (t : Topology) (ns : String) (p : Member)
    (hp : getPartitioningState t ns = some (.unpartitioned p)) :
    ∀ mode, resolveTargets t ns mode = .ok [p] := by
  intro mode
  cases mode with
  | primaryOnly =>
    unfold resolveTargets
    rw [getPrimary_of_unpartitioned t ns p hp]
  | broadcastToOwners =>
    unfold resolveTargets
    rw [hp]

/-- An unknown namespace makes resolution fail with `unknownNamespace` in every
targeting mode. -/
theorem resolveTargets_unknown (t : Topology) (ns : String)
    (hp : getPartitioningState t ns = none) :
    ∀ mode, resolveTargets t ns mode = .error .unknownNamespace := by
  intro mode
  cases mode with
  | primaryOnly =>
    unfold resolveTargets
    rw [getPrimary_of_unknown t ns hp]
  | broadcastToOwners =>
    unfold resolveTargets
    rw [hp]

/-- Association lookup after the per-member state update of a broadcast. -/
theorem assocFind_apply_map (cmd : CommandPayload) (targets : List Member) (m : Member) :
    ∀ states : List (Member × MemberState),
      assocFind m (states.map fun p =>
        (p.1, if targets.contains p.1 then (memberExec p.2 cmd).1 else p.2)) =
      (assocFind m states).map fun s => if targets.contains m then (memberExec s cmd).1 else s
  | [] => rfl
  | (k, v) :: rest => by
    simp only [List.map_cons, assocFind]
    by_cases h : k = m
    · subst h
      rw [if_pos rfl, if_pos rfl]
      rfl
    · rw [if_neg h, if_neg h]
      exact assocFind_apply_map cmd targets m rest

/-- A member whose execution of a command fails keeps its local state. -/
theorem memberExec_failure_frame (s : MemberState) (cmd : CommandPayload)
    (h : (memberExec s cmd).2.isSuccess = false) : (memberExec s cmd).1 = s := by
  cases cmd with
  | createIndex key =>
    by_cases hc : s.hasCollection = true
    · by_cases hk : key ∈ s.indexes
      · simp [memberExec, hc, hk]
      · simp [memberExec, hc, hk, PerMemberResult.isSuccess] at h
    · simp [memberExec, hc]
  | reIndex =>
    by_cases hc : s.hasCollection = true
    · simp [memberExec, hc, PerMemberResult.isSuccess] at h
    · simp [memberExec, hc]
  | dropIndex key =>
    by_cases hc : s.hasCollection = true
    · by_cases hk : key ∈ s.indexes
      · simp [memberExec, hc, hk, PerMemberResult.isSuccess] at h
      · simp [memberExec, hc, hk]
    · simp [memberExec, hc]
  | collMod key value =>
    by_cases hc : s.hasCollection = true
    · simp [memberExec, hc, PerMemberResult.isSuccess] at h
    · simp [memberExec, hc]

/-- Member-local createIndex either succeeds (idempotently) or fails with the
suppressible `CannotImplicitlyCreateCollection` code. -/
theorem memberExec_createIndex_suppressedOrSuccess (s : MemberState) (key : String) :
    suppressedOrSuccess [ErrorCode.cannotImplicitlyCreateCollection]
      (memberExec s (.createIndex key)).2 = true := by
  by_cases hc : s.hasCollection = true
  · by_cases hk : key ∈ s.indexes
    · simp [memberExec, hc, hk, suppressedOrSuccess]
    · simp [memberExec, hc, hk, suppressedOrSuccess]
  · simp [memberExec, hc, suppressedOrSuccess]

/-- A broadcast createIndex always aggregates to overall success: every member
reply is a success or the suppressible creation error. -/
theorem aggregate_createIndex_ok (c : Cluster) (k : String) (targets : List Member) :
    (aggregate
      (targets.map fun m => (m, (memberExec (getMemberState c m) (.createIndex k)).2))
      [ErrorCode.cannotImplicitlyCreateCollection]).ok = true := by
  rw [aggregate_ok_iff]
  intro p hp
  rcases List.mem_map.mp hp with ⟨m, _, hpe⟩
  rw [← hpe]
  exact memberExec_createIndex_suppressedOrSuccess (getMemberState c m) k

/-! ### Claim theorems -/

/-- Claim C1: the aggregated outcome of a metadata command is success iff every
member result that is not a suppressible error is a success; when every
targeted member's reply is a success or a suppressible error,
`routeMetadataCommand` reports overall success while the raw mapping keeps each
member's original (error-carrying) reply. -/
theorem c1_overall_success_iff_nonsuppressible_success :
    (∀ (results : List (Member × PerMemberResult)) (supp : List ErrorCode),
      (aggregate results supp).ok = true ↔
        ∀ p ∈ results, suppressedOrSuccess supp p.2 = true) ∧
    (∀ (t : Topology) (send : Member → PerMemberResult) (ns kind : String)
        (mode : TargetingMode) (supp : List ErrorCode) (targets : List Member),
      classify kind = some (mode, supp) →
      resolveTargets t ns mode = .ok targets →
      (∀ m ∈ targets, suppressedOrSuccess supp (send m) = true) →
      routeMetadataCommand t send ns kind =
        .ok { ok := true, overallError := none, raw := execute targets send }) := by
  constructor
  · exact aggregate_ok_iff
  · intro t send ns kind mode supp targets hcl hrt hsupp
    have hall : ∀ p ∈ execute targets send, suppressedOrSuccess supp p.2 = true := by
      intro p hp
      rw [execute] at hp
      rcases List.mem_map.mp hp with ⟨m, hm, hpe⟩
      rw [← hpe]
      exact hsupp m hm
    rw [routeMetadataCommand_eq t send ns kind mode supp targets hcl hrt,
      aggregate_all_suppressed _ _ hall]

/-- Witness for C1 at the test's broadcast createIndex scenario. -/
theorem c1_witness :
    routeMetadataCommand shardedTopology testSend nsFoo "createIndex" =
      .ok { ok := true, overallError := none, raw := execute [shard0, shard1] testSend } :=
  c1_overall_success_iff_nonsuppressible_success.2 shardedTopology testSend nsFoo
    "createIndex" .broadcastToOwners [.cannotImplicitlyCreateCollection]
    [shard0, shard1] rfl rfl (by decide)

/-- Claim C2 counterexample: in the post-moveChunk scenario with range
ownership on shards 0 and 1 and none on shard2, the targeting the test
documents and asserts broadcasts to all three shards, not to the owners alone,
and shard2 does appear in the raw per-member mapping, carrying
`CannotImplicitlyCreateCollection` (test lines 120-125). -/
theorem c2_counterexample :
    mongosTargets allShards3 shardedTopology nsFoo = .ok [shard0, shard1, shard2] ∧
    mongosTargets allShards3 shardedTopology nsFoo ≠ .ok [shard0, shard1] ∧
    mongosRoute allShards3 shardedTopology testSend nsFoo "createIndex" =
      .ok { ok := true, overallError := none, raw := testCreateIndexRaw } ∧
    (shard2, PerMemberResult.failure .cannotImplicitlyCreateCollection
      "CannotImplicitlyCreateCollection") ∈ testCreateIndexRaw := by
  refine ⟨rfl, ?_, rfl, by decide⟩
  intro h
  rw [show mongosTargets allShards3 shardedTopology nsFoo =
    .ok [shard0, shard1, shard2] from rfl] at h
  simp only [Except.ok.injEq] at h
  exact absurd h (by decide)

/-- Claim C2 amended: on a partitioned collection the broadcast goes to all
shards, including members owning no ranges; a non-owning shard therefore
appears in the raw mapping with its original suppressed error code, and when
every reply is a success or the suppressible creation error the overall
outcome is success. -/
theorem c2_amended_broadcast_to_all_shards :
    (∀ (all : List Member) (t : Topology) (ns key : String)
        (ro : List (Member × List String)),
      getPartitioningState t ns = some (.partitioned key ro) →
      mongosTargets all t ns = .ok all) ∧
    (∀ (all : List Member) (t : Topology) (send : Member → PerMemberResult)
        (ns key : String) (ro : List (Member × List String)),
      getPartitioningState t ns = some (.partitioned key ro) →
      (∀ m ∈ all, suppressedOrSuccess [ErrorCode.cannotImplicitlyCreateCollection]
        (send m) = true) →
      mongosRoute all t send ns "createIndex" =
        .ok { ok := true, overallError := none, raw := execute all send }) := by
  constructor
  · intro all t ns key ro hp
    rw [getPartitioningState] at hp
    unfold mongosTargets getPartitioningState
    rw [hp]
  · intro all t send ns key ro hp hsupp
    have hmt : mongosTargets all t ns = .ok all := by
      rw [getPartitioningState] at hp
      unfold mongosTargets getPartitioningState
      rw [hp]
    have hall : ∀ p ∈ execute all send,
        suppressedOrSuccess [ErrorCode.cannotImplicitlyCreateCollection] p.2 = true := by
      intro p hpm
      rw [execute] at hpm
      rcases List.mem_map.mp hpm with ⟨m, hm, hpe⟩
      rw [← hpe]
      exact hsupp m hm
    rw [mongosRoute_eq all t send ns "createIndex" TargetingMode.broadcastToOwners
      [ErrorCode.cannotImplicitlyCreateCollection] all rfl hmt,
      aggregate_all_suppressed _ _ hall]

/-- Witness for the amended C2 at the test scenario. -/
theorem c2_witness :
    mongosRoute allShards3 shardedTopology testSend nsFoo "createIndex" =
      .ok { ok := true, overallError := none, raw := execute allShards3 testSend } :=
  c2_amended_broadcast_to_all_shards.2 allShards3 shardedTopology testSend nsFoo "x"
    [(shard0, ["rangeLow"]), (shard1, ["rangeHigh"]), (shard2, [])] rfl (by decide)

/-- Claim C3: regardless of the overall verdict, the raw mapping of an
aggregation is exactly the per-member results, and a routed command's raw
mapping is exactly one entry per originally resolved target carrying the
member's original unmodified result. -/
theorem c3_raw_mapping_untouched :
    (∀ (results : List (Member × PerMemberResult)) (supp : List ErrorCode),
      (aggregate results supp).raw = results) ∧
    (∀ (t : Topology) (send : Member → PerMemberResult) (ns kind : String)
        (mode : TargetingMode) (supp : List ErrorCode) (targets : List Member)
        (o : AggregatedOutcome),
      classify kind = some (mode, supp) →
      resolveTargets t ns mode = .ok targets →
      routeMetadataCommand t send ns kind = .ok o →
      o.raw = execute targets send) := by
  constructor
  · exact aggregate_raw
  · intro t send ns kind mode supp targets o hcl hrt hro
    rw [routeMetadataCommand_eq t send ns kind mode supp targets hcl hrt] at hro
    simp only [Except.ok.injEq] at hro
    rw [← hro]
    exact aggregate_raw _ _

/-- Witness for C3 at the test's broadcast dropIndex scenario. -/
theorem c3_witness :
    (aggregate (execute [shard0, shard1] testSend) [ErrorCode.namespaceNotFound]).raw =
      execute [shard0, shard1] testSend :=
  c3_raw_mapping_untouched.2 shardedTopology testSend nsFoo "dropIndex"
    .broadcastToOwners [ErrorCode.namespaceNotFound] [shard0, shard1] _ rfl rfl rfl

/-- Claim C4: `classify` is a pure total function of the command kind alone;
index-create gets the suppressible set {CannotImplicitlyCreateCollection} and
index-rebuild, index-drop and collection-option-modify get {NamespaceNotFound};
the function has no collection-state argument, so the set depends only on the
kind. -/
theorem c4_classify_static_suppressible_sets :
    classify "createIndex" =
      some (.broadcastToOwners, [ErrorCode.cannotImplicitlyCreateCollection]) ∧
    classify "reIndex" = some (.broadcastToOwners, [ErrorCode.namespaceNotFound]) ∧
    classify "dropIndex" = some (.broadcastToOwners, [ErrorCode.namespaceNotFound]) ∧
    classify "collMod" = some (.broadcastToOwners, [ErrorCode.namespaceNotFound]) :=
  ⟨rfl, rfl, rfl, rfl⟩

/-- Claim C5: `primaryOnly` targeting resolves to exactly the current primary
member regardless of partitioning state, and a metadata command on an
unpartitioned collection routes to the primary alone with a raw mapping of
size 1. -/
theorem c5_primary_only_targets_primary :
    (∀ (t : Topology) (ns : String) (p : Member),
      getPrimary t ns = some p →
      resolveTargets t ns TargetingMode.primaryOnly = .ok [p]) ∧
    (∀ (t : Topology) (send : Member → PerMemberResult) (ns kind : String)
        (mode : TargetingMode) (supp : List ErrorCode) (p : Member),
      classify kind = some (mode, supp) →
      getPartitioningState t ns = some (.unpartitioned p) →
      routeMetadataCommand t send ns kind = .ok (aggregate [(p, send p)] supp) ∧
      (aggregate [(p, send p)] supp).raw = [(p, send p)] ∧
      (aggregate [(p, send p)] supp).raw.length = 1) := by
  constructor
  · intro t ns p hp
    unfold resolveTargets
    rw [hp]
  · intro t send ns kind mode supp p hcl hp
    have hrt := resolveTargets_unpartitioned t ns p hp mode
    refine ⟨?_, rfl, rfl⟩
    rw [routeMetadataCommand_eq t send ns kind mode supp [p] hcl hrt]
    rfl

/-- Witness for C5 at the unsharded collMod scenario (primary shard0). -/
theorem c5_witness :
    routeMetadataCommand unshardedTopology testSend nsFoo "collMod" =
      .ok (aggregate [(shard0, testSend shard0)] [ErrorCode.namespaceNotFound]) ∧
    (aggregate [(shard0, testSend shard0)] [ErrorCode.namespaceNotFound]).raw =
      [(shard0, testSend shard0)] ∧
    (aggregate [(shard0, testSend shard0)] [ErrorCode.namespaceNotFound]).raw.length = 1 :=
  c5_primary_only_targets_primary.2 unshardedTopology testSend nsFoo "collMod"
    .broadcastToOwners [ErrorCode.namespaceNotFound] shard0 rfl rfl

/-- Claim C6: under `broadcastToOwners`, an unpartitioned collection resolves
to the singleton of the primary member, and a partitioned collection with zero
range ownership on any member also resolves to the primary member alone. -/
theorem c6_broadcast_unpartitioned_primary :
    (∀ (t : Topology) (ns : String) (p : Member),
      getPartitioningState t ns = some (.unpartitioned p) →
      resolveTargets t ns TargetingMode.broadcastToOwners = .ok [p]) ∧
    (∀ (t : Topology) (ns key : String) (ro : List (Member × List String)) (p : Member),
      getPartitioningState t ns = some (.partitioned key ro) →
      owningMembers ro = [] →
      getPrimary t ns = some p →
      resolveTargets t ns TargetingMode.broadcastToOwners = .ok [p]) := by
  constructor
  · intro t ns p hp
    exact resolveTargets_unpartitioned t ns p hp TargetingMode.broadcastToOwners
  · intro t ns key ro p hp how hprim
    unfold resolveTargets
    rw [hp]
    simp only [how, hprim, List.isEmpty_nil, if_true]

/-- Witness for C6: the unsharded scenario and the zero-ownership edge case. -/
theorem c6_witness :
    resolveTargets unshardedTopology nsFoo TargetingMode.broadcastToOwners = .ok [shard0] ∧
    resolveTargets emptyOwnershipTopology nsFoo TargetingMode.broadcastToOwners =
      .ok [shard0] :=
  ⟨c6_broadcast_unpartitioned_primary.1 unshardedTopology nsFoo shard0 rfl,
   c6_broadcast_unpartitioned_primary.2 emptyOwnershipTopology nsFoo "x"
     [(shard0, []), (shard1, []), (shard2, [])] shard0 rfl rfl rfl⟩

/-- Claim C7: whenever non-ignorable failures exist, the overall error
surfaced by `aggregate` is one of them, corresponds to an original raw failure
entry, and carries the lowest member identifier among them; concretely, with
non-ignorable failures from members "b" and "a" the surfaced error is the one
from "a" in either arrival order. -/
theorem c7_lowest_id_failure_surfaced :
    (∀ (results : List (Member × PerMemberResult)) (supp : List ErrorCode)
        (e : Member × ErrorCode × String),
      (aggregate results supp).overallError = some e →
      e ∈ nonIgnorableFailures supp results ∧
      (e.1, PerMemberResult.failure e.2.1 e.2.2) ∈ results ∧
      ∀ g ∈ nonIgnorableFailures supp results, e.1 = g.1 ∨ memberLtb e.1 g.1 = true) ∧
    (∀ (results : List (Member × PerMemberResult)) (supp : List ErrorCode),
      nonIgnorableFailures supp results ≠ [] →
      (aggregate results supp).overallError.isSome = true) ∧
    (aggregate [("b", PerMemberResult.failure .hostUnreachable "down"),
                ("a", PerMemberResult.failure .indexNotFound "missing")] []).overallError =
      some ("a", ErrorCode.indexNotFound, "missing") ∧
    (aggregate [("a", PerMemberResult.failure .indexNotFound "missing"),
                ("b", PerMemberResult.failure .hostUnreachable "down")] []).overallError =
      some ("a", ErrorCode.indexNotFound, "missing") := by
  refine ⟨?_, ?_, by decide, by decide⟩
  · intro results supp e he
    have he' : pickLowest (nonIgnorableFailures supp results) = some e := he
    have hspec := pickLowest_spec _ e he'
    exact ⟨hspec.1, (nonIgnorableFailures_mem supp results e hspec.1).1, hspec.2⟩
  · intro results supp hne
    have hagg : (aggregate results supp).overallError =
        pickLowest (nonIgnorableFailures supp results) := rfl
    cases hnif : nonIgnorableFailures supp results with
    | nil => exact absurd hnif hne
    | cons f fs =>
      rw [hagg, hnif]
      simp [pickLowest]

/-- Witness for C7: the "b"/"a" scenario surfaces the failure from "a". -/
theorem c7_witness :
    (aggregate [("b", PerMemberResult.failure .hostUnreachable "down"),
      ("a", PerMemberResult.failure .indexNotFound "missing")] []).overallError.isSome =
      true :=
  c7_lowest_id_failure_surfaced.2.1
    [("b", PerMemberResult.failure .hostUnreachable "down"),
     ("a", PerMemberResult.failure .indexNotFound "missing")] [] (by decide)

/-- Claim C8: an unknown namespace fails with `unknownNamespace` and an
unrecognized command kind fails at classification; on every error path the
outcome is independent of the transport, so no member is dispatched to and no
per-member results are produced. -/
theorem c8_fatal_errors_no_dispatch :
    (∀ (t : Topology) (send : Member → PerMemberResult) (ns kind : String)
        (mode : TargetingMode) (supp : List ErrorCode),
      classify kind = some (mode, supp) →
      getPartitioningState t ns = none →
      routeMetadataCommand t send ns kind = .error .unknownNamespace) ∧
    (∀ (t : Topology) (send : Member → PerMemberResult) (ns kind : String),
      classify kind = none →
      routeMetadataCommand t send ns kind = .error .unrecognizedCommandKind) ∧
    (∀ (t : Topology) (send sendB : Member → PerMemberResult) (ns kind : String)
        (e : ErrorCode),
      routeMetadataCommand t send ns kind = .error e →
      routeMetadataCommand t sendB ns kind = .error e) := by
  refine ⟨?_, ?_, ?_⟩
  · intro t send ns kind mode supp hcl hp
    unfold routeMetadataCommand
    simp only [hcl, resolveTargets_unknown t ns hp mode]
  · intro t send ns kind hcl
    unfold routeMetadataCommand
    simp only [hcl]
  · intro t send sendB ns kind e h
    unfold routeMetadataCommand at h ⊢
    cases hcl : classify kind with
    | none =>
      simp only [hcl] at h ⊢
      exact h
    | some d =>
      obtain ⟨mode, supp⟩ := d
      cases hrt : resolveTargets t ns mode with
      | error e2 =>
        simp only [hcl, hrt] at h ⊢
        exact h
      | ok targets =>
        simp only [hcl, hrt] at h
        exact Except.noConfusion h

/-- Witness for C8: routing against an empty Topology Directory. -/
theorem c8_witness :
    routeMetadataCommand emptyTopology testSend nsFoo "collMod" =
      .error .unknownNamespace :=
  c8_fatal_errors_no_dispatch.1 emptyTopology testSend nsFoo "collMod"
    .broadcastToOwners [ErrorCode.namespaceNotFound] rfl rfl

/-- Claim C9: issuing the same creation-style command (index-create) twice
against the same target set yields overall success both times; the second
run's "already exists" observations are idempotent member successes and the
non-owning members' errors remain suppressed. -/
theorem c9_create_index_idempotent_success :
    ∀ (all : List Member) (c : Cluster) (ns k : String) (c1 : Cluster)
      (o1 : AggregatedOutcome),
      mongosRouteAndApply all c ns (.createIndex k) = .ok (c1, o1) →
      o1.ok = true ∧ routeOk (mongosRouteAndApply all c1 ns (.createIndex k)) = true := by
  intro all c ns k c1 o1 h
  have hcl : classify (CommandPayload.createIndex k).kind =
      some (TargetingMode.broadcastToOwners,
        [ErrorCode.cannotImplicitlyCreateCollection]) := rfl
  cases hmt : mongosTargets all c.topology ns with
  | error e =>
    unfold mongosRouteAndApply at h
    simp only [hcl, hmt] at h
    exact Except.noConfusion h
  | ok targets =>
    rw [mongosRouteAndApply_eq all c ns (.createIndex k) _ _ targets hcl hmt] at h
    simp only [Except.ok.injEq, Prod.mk.injEq] at h
    obtain ⟨hc1, ho1⟩ := h
    constructor
    · rw [← ho1]
      exact aggregate_createIndex_ok c k targets
    · have hmt1 : mongosTargets all c1.topology ns = .ok targets := by
        rw [show c1.topology = c.topology from by rw [← hc1]]
        exact hmt
      rw [mongosRouteAndApply_eq all c1 ns (.createIndex k) _ _ targets hcl hmt1]
      show (aggregate (targets.map fun m =>
        (m, (memberExec (getMemberState c1 m) (.createIndex k)).2))
        [ErrorCode.cannotImplicitlyCreateCollection]).ok = true
      exact aggregate_createIndex_ok c1 k targets

/-- Witness for C9: the post-moveChunk createIndex broadcast, run twice. -/
theorem c9_witness :
    postCreateIndexOutcome.ok = true ∧
    routeOk (mongosRouteAndApply allShards3 postCreateIndexCluster nsFoo
      (.createIndex "idx2")) = true :=
  c9_create_index_idempotent_success allShards3 postMoveChunkCluster nsFoo "idx2"
    postCreateIndexCluster postCreateIndexOutcome (by rfl)

/-- The state of a member after the broadcast update, via the lookup of its
previous state. -/
theorem getMemberState_mapped (c : Cluster) (cmd : CommandPayload)
    (targets : List Member) (m : Member) :
    getMemberState { c with memberStates := c.memberStates.map fun p =>
      (p.1, if targets.contains p.1 then (memberExec p.2 cmd).1 else p.2) } m =
    ((assocFind m c.memberStates).map fun s =>
      if targets.contains m then (memberExec s cmd).1 else s).getD defaultMemberState := by
  unfold getMemberState
  rw [assocFind_apply_map]

/-- Claim C10: a member whose per-member result is a failure (in particular a
suppressed error) is left with its local state unchanged by the command, even
though the overall command may succeed. -/
theorem c10_failed_member_state_unchanged :
    (∀ (s : MemberState) (cmd : CommandPayload),
      (memberExec s cmd).2.isSuccess = false → (memberExec s cmd).1 = s) ∧
    (∀ (all : List Member) (c : Cluster) (ns : String) (cmd : CommandPayload)
        (cB : Cluster) (o : AggregatedOutcome),
      mongosRouteAndApply all c ns cmd = .ok (cB, o) →
      ∀ p ∈ o.raw, p.2.isSuccess = false →
        getMemberState cB p.1 = getMemberState c p.1) := by
  constructor
  · exact memberExec_failure_frame
  · intro all c ns cmd cB o h p hp hfail
    cases hcl : classify cmd.kind with
    | none =>
      unfold mongosRouteAndApply at h
      simp only [hcl] at h
      exact Except.noConfusion h
    | some d =>
      obtain ⟨mode, supp⟩ := d
      cases hmt : mongosTargets all c.topology ns with
      | error e =>
        unfold mongosRouteAndApply at h
        simp only [hcl, hmt] at h
        exact Except.noConfusion h
      | ok targets =>
        rw [mongosRouteAndApply_eq all c ns cmd mode supp targets hcl hmt] at h
        simp only [Except.ok.injEq, Prod.mk.injEq] at h
        obtain ⟨hcB, ho⟩ := h
        rw [← ho, aggregate_raw] at hp
        rcases List.mem_map.mp hp with ⟨m, hm, hpe⟩
        have hp1 : p.1 = m := by rw [← hpe]
        have hfail2 : (memberExec (getMemberState c m) cmd).2.isSuccess = false := by
          rw [← hpe] at hfail
          exact hfail
        rw [← hcB, hp1, getMemberState_mapped]
        cases hfind : assocFind m c.memberStates with
        | none =>
          unfold getMemberState
          rw [hfind]
          rfl
        | some s =>
          have hs : getMemberState c m = s := by
            unfold getMemberState
            rw [hfind]
            rfl
          have hcont : targets.contains m = true := List.elem_eq_true_of_mem hm
          rw [hs] at hfail2
          simp only [Option.map_some, Option.getD_some, if_pos hcont]
          rw [hs]
          exact memberExec_failure_frame s cmd hfail2

/-- Witness for C10: shard2's suppressed error in the broadcast createIndex
leaves its state unchanged, so it acquires neither the collection nor the
index. -/
theorem c10_witness :
    getMemberState postCreateIndexCluster shard2 =
      getMemberState postMoveChunkCluster shard2 ∧
    (getMemberState postCreateIndexCluster shard2).indexes.contains "idx2" = false ∧
    (getMemberState postCreateIndexCluster shard2).hasCollection = false :=
  ⟨c10_failed_member_state_unchanged.2 allShards3 postMoveChunkCluster nsFoo
      (.createIndex "idx2") postCreateIndexCluster postCreateIndexOutcome (by rfl)
      (shard2, .failure .cannotImplicitlyCreateCollection
        "collection does not exist yet on this member") (by decide) (by decide),
   by decide, by decide⟩

end MetadataRouter
